import Mathlib

/-!
Verification of the Krawall chatbot load-testing platform's core algorithms,
shallowly embedded from the TypeScript sources.

JS strings are modelled as `List Char`, JS numbers that hold integral counts
as `ℕ`/`ℤ`, and fractional JS arithmetic as `ℚ`.  Functions keep the names of
the source methods they embed.
-/

namespace Krawall

/-! ## MetricsCollector: Levenshtein distance and similarity
Embedded from `MetricsCollector.levenshteinDistance` and
`MetricsCollector.calculateSimilarity`.  The source fills a Wagner–Fischer
DP table `dp[i][j]` over prefixes with the recurrence
`dp[i][j] = dp[i-1][j-1]` when the characters agree and otherwise
`1 + min(deletion, insertion, substitution)`; the embedding states the same
recurrence by structural recursion on the strings. -/

def levenshteinDistance : List Char → List Char → ℕ
  | [], str2 => str2.length
  | str1, [] => str1.length
  | c1 :: str1, c2 :: str2 =>
    if c1 = c2 then
      levenshteinDistance str1 str2
    else
      1 + min (levenshteinDistance str1 (c2 :: str2))
          (min (levenshteinDistance (c1 :: str1) str2)
            (levenshteinDistance str1 str2))
termination_by s1 s2 => s1.length + s2.length
decreasing_by all_goals simp_arith

@[simp] theorem levenshteinDistance_nil_left (s : List Char) :
    levenshteinDistance [] s = s.length := by
  cases s <;> simp [levenshteinDistance]

@[simp] theorem levenshteinDistance_nil_right (s : List Char) :
    levenshteinDistance s [] = s.length := by
  cases s <;> simp [levenshteinDistance]

@[simp] theorem levenshteinDistance_self : ∀ s : List Char, levenshteinDistance s s = 0
  | [] => by simp
  | c :: s => by
    rw [levenshteinDistance, if_pos rfl]
    exact levenshteinDistance_self s

theorem levenshteinDistance_comm :
    ∀ s1 s2 : List Char, levenshteinDistance s1 s2 = levenshteinDistance s2 s1
  | [], [] => by simp
  | [], _ :: _ => by simp
  | _ :: _, [] => by simp
  | c1 :: s1, c2 :: s2 => by
    by_cases h : c1 = c2
    · subst h
      rw [levenshteinDistance, levenshteinDistance, if_pos rfl, if_pos rfl]
      exact levenshteinDistance_comm s1 s2
    · have h' : ¬ c2 = c1 := fun hh => h hh.symm
      rw [levenshteinDistance, levenshteinDistance, if_neg h, if_neg h']
      rw [levenshteinDistance_comm s1 (c2 :: s2), levenshteinDistance_comm (c1 :: s1) s2,
        levenshteinDistance_comm s1 s2, min_left_comm]
termination_by s1 s2 => s1.length + s2.length
decreasing_by all_goals simp_arith

theorem levenshteinDistance_le_max :
    ∀ s1 s2 : List Char, levenshteinDistance s1 s2 ≤ max s1.length s2.length
  | [], s2 => by simp
  | s1 :: t1, [] => by simp
  | c1 :: s1, c2 :: s2 => by
    by_cases h : c1 = c2
    · rw [levenshteinDistance, if_pos h]
      calc levenshteinDistance s1 s2 ≤ max s1.length s2.length :=
            levenshteinDistance_le_max s1 s2
        _ ≤ max (c1 :: s1).length (c2 :: s2).length := by
            simp only [List.length_cons]
            omega
    · rw [levenshteinDistance, if_neg h]
      have hsub : min (levenshteinDistance s1 (c2 :: s2))
          (min (levenshteinDistance (c1 :: s1) s2) (levenshteinDistance s1 s2)) ≤
          levenshteinDistance s1 s2 :=
        le_trans (min_le_right _ _) (min_le_right _ _)
      have := levenshteinDistance_le_max s1 s2
      simp only [List.length_cons]
      omega
termination_by s1 s2 => s1.length + s2.length
decreasing_by all_goals simp_arith

/-- Models `String.prototype.trim` on JS strings. -/
def jsTrim (s : List Char) : List Char :=
  ((s.dropWhile Char.isWhitespace).reverse.dropWhile Char.isWhitespace).reverse

/-- Computes `str.toLowerCase().trim()`, the normalisation both inputs of
`calculateSimilarity` go through. -/
def normalizeString (s : List Char) : List Char :=
  jsTrim (s.map Char.toLower)

/-- Embedded from `MetricsCollector.calculateSimilarity`. -/
def calculateSimilarity (str1 str2 : List Char) : ℚ :=
  let s1 := normalizeString str1
  let s2 := normalizeString str2
  if s1 = s2 then 1
  else if s1.length = 0 ∨ s2.length = 0 then 0
  else 1 - (levenshteinDistance s1 s2 : ℚ) / ((max s1.length s2.length : ℕ) : ℚ)

theorem calculateSimilarity_eq_formula (a b : List Char) :
    calculateSimilarity a b =
      1 - (levenshteinDistance (normalizeString a) (normalizeString b) : ℚ) /
        ((max (normalizeString a).length (normalizeString b).length : ℕ) : ℚ) := by
  unfold calculateSimilarity
  dsimp only
  split_ifs with h1 h2
  · rw [h1, levenshteinDistance_self]
    simp
  · rcases h2 with hl | hl
    · have hs1 : normalizeString a = [] := List.length_eq_zero.mp hl
      have hs2 : normalizeString b ≠ [] := fun hb => h1 (hs1.trans hb.symm)
      have hlen : (normalizeString b).length ≠ 0 := fun hz => hs2 (List.length_eq_zero.mp hz)
      rw [hs1]
      simp only [levenshteinDistance_nil_left, List.length_nil, Nat.zero_max]
      rw [div_self (by exact_mod_cast hlen)]
      ring
    · have hs2 : normalizeString b = [] := List.length_eq_zero.mp hl
      have hs1 : normalizeString a ≠ [] := fun ha => h1 (ha.trans hs2.symm)
      have hlen : (normalizeString a).length ≠ 0 := fun hz => hs1 (List.length_eq_zero.mp hz)
      rw [hs2]
      simp only [levenshteinDistance_nil_right, List.length_nil, Nat.max_zero]
      rw [div_self (by exact_mod_cast hlen)]
      ring
  · rfl

theorem calculateSimilarity_comm (a b : List Char) :
    calculateSimilarity a b = calculateSimilarity b a := by
  rw [calculateSimilarity_eq_formula, calculateSimilarity_eq_formula,
    levenshteinDistance_comm, Nat.max_comm]

theorem calculateSimilarity_nonneg (a b : List Char) :
    0 ≤ calculateSimilarity a b := by
  unfold calculateSimilarity
  dsimp only
  split_ifs with h1 h2
  · norm_num
  · exact le_refl 0
  · have hl1 : (normalizeString a).length ≠ 0 := fun h => h2 (Or.inl h)
    have hM : (0 : ℚ) < ((max (normalizeString a).length (normalizeString b).length : ℕ) : ℚ) := by
      have : 0 < max (normalizeString a).length (normalizeString b).length :=
        lt_of_lt_of_le (Nat.pos_of_ne_zero hl1) (le_max_left _ _)
      exact_mod_cast this
    have hd : (levenshteinDistance (normalizeString a) (normalizeString b) : ℚ) ≤
        ((max (normalizeString a).length (normalizeString b).length : ℕ) : ℚ) := by
      exact_mod_cast levenshteinDistance_le_max _ _
    have := div_le_one_of_le₀ hd (le_of_lt hM)
    linarith

theorem calculateSimilarity_le_one (a b : List Char) :
    calculateSimilarity a b ≤ 1 := by
  unfold calculateSimilarity
  dsimp only
  split_ifs with h1 h2
  · exact le_refl 1
  · norm_num
  · have hd : (0 : ℚ) ≤ (levenshteinDistance (normalizeString a) (normalizeString b) : ℚ) := by
      positivity
    have hM : (0 : ℚ) ≤ ((max (normalizeString a).length (normalizeString b).length : ℕ) : ℚ) := by
      positivity
    have := div_nonneg hd hM
    linarith

@[simp] theorem calculateSimilarity_self (a : List Char) :
    calculateSimilarity a a = 1 := by
  unfold calculateSimilarity
  dsimp only
  rw [if_pos rfl]

/-! ## Claim C1 -/

/-- C1: for all strings `a` and `b`, `MetricsCollector.calculateSimilarity`
equals one minus the Levenshtein distance of the lowercased, trimmed inputs
divided by the longer normalised length, is symmetric, bounded in `[0,1]`,
and `sim(a,a) = 1` for every non-empty `a`. -/
theorem claim_C1_calculateSimilarity (a b : List Char) :
    calculateSimilarity a b =
      1 - (levenshteinDistance (normalizeString a) (normalizeString b) : ℚ) /
        ((max (normalizeString a).length (normalizeString b).length : ℕ) : ℚ) ∧
    calculateSimilarity a b = calculateSimilarity b a ∧
    0 ≤ calculateSimilarity a b ∧ calculateSimilarity a b ≤ 1 ∧
    (a ≠ [] → calculateSimilarity a a = 1) :=
  ⟨calculateSimilarity_eq_formula a b, calculateSimilarity_comm a b,
    calculateSimilarity_nonneg a b, calculateSimilarity_le_one a b,
    fun _ => calculateSimilarity_self a⟩

theorem claim_C1_calculateSimilarity_witness :
    (['h', 'i'] : List Char) ≠ [] ∧
      calculateSimilarity ['h', 'i'] ['h', 'i'] = 1 :=
  ⟨by decide, (claim_C1_calculateSimilarity ['h', 'i'] ['h', 'o']).2.2.2.2 (by decide)⟩

/-! ## MetricsCollector: repetition scoring (claim C5)
Embedded from `MetricsCollector.recordWithResponse` and
`MetricsCollector.calculateRepetitionScore`. -/

/-- One recorded message metric (`MessageMetrics` minus the constant
`sessionId`). -/
structure MessageMetric where
  responseTimeMs : ℕ
  success : Bool
  totalTokens : Option ℕ
  repetitionScore : Option ℚ
deriving DecidableEq

/-- The caller-supplied part of a metric
(`Omit<MessageMetrics, "sessionId" | "repetitionScore">`). -/
structure MetricBase where
  responseTimeMs : ℕ
  success : Bool
  totalTokens : Option ℕ
deriving DecidableEq

def maxPreviousResponses : ℕ := 10

/-- Embedded from `MetricsCollector.calculateRepetitionScore`. -/
def calculateRepetitionScore (response : List Char)
    (previousResponses : List (List Char)) : ℚ :=
  if previousResponses.length = 0 then 0
  else previousResponses.foldl
    (fun maxSimilarity previousResponse =>
      max maxSimilarity (calculateSimilarity response previousResponse)) 0

/-- The collector's mutable fields that repetition detection touches. -/
structure MetricsCollectorState where
  metrics : List MessageMetric
  previousResponses : List (List Char)
deriving DecidableEq

def initialCollector : MetricsCollectorState := ⟨[], []⟩

/-- Embedded from `MetricsCollector.recordWithResponse`: score against the
retained prior responses, append the metric, push the response, and shift the
oldest response once more than `maxPreviousResponses` are held. -/
def recordWithResponse (st : MetricsCollectorState) (base : MetricBase)
    (responseContent : List Char) : MetricsCollectorState :=
  let repetitionScore := calculateRepetitionScore responseContent st.previousResponses
  let pushed := st.previousResponses ++ [responseContent]
  { metrics := st.metrics ++
      [⟨base.responseTimeMs, base.success, base.totalTokens, some repetitionScore⟩],
    previousResponses :=
      if maxPreviousResponses < pushed.length then pushed.drop 1 else pushed }

def runRecords (st : MetricsCollectorState) :
    List (MetricBase × List Char) → MetricsCollectorState
  | [] => st
  | (base, r) :: rest => runRecords (recordWithResponse st base r) rest

/-- The last `maxPreviousResponses` elements of `l` (oldest dropped first). -/
def retainedResponses (l : List (List Char)) : List (List Char) :=
  l.drop (l.length - maxPreviousResponses)

theorem retainedResponses_length_le (l : List (List Char)) :
    (retainedResponses l).length ≤ maxPreviousResponses := by
  simp [retainedResponses]
  omega

theorem recordWithResponse_previousResponses (st : MetricsCollectorState)
    (base : MetricBase) (r : List Char)
    (h : st.previousResponses.length ≤ maxPreviousResponses) :
    (recordWithResponse st base r).previousResponses =
      retainedResponses (st.previousResponses ++ [r]) := by
  simp only [recordWithResponse, retainedResponses, List.length_append,
    List.length_singleton]
  split_ifs with hlen
  · have : st.previousResponses.length + 1 - maxPreviousResponses = 1 := by omega
    rw [this]
  · have : st.previousResponses.length + 1 - maxPreviousResponses = 0 := by omega
    rw [this, List.drop_zero]

theorem retainedResponses_append (l t : List (List Char)) :
    retainedResponses (retainedResponses l ++ t) = retainedResponses (l ++ t) := by
  simp only [retainedResponses, List.length_append, List.length_drop]
  rw [List.drop_append_eq_append_drop, List.drop_append_eq_append_drop, List.drop_drop,
    List.length_drop]
  congr 2 <;> omega

theorem runRecords_previousResponses :
    ∀ (rs : List (MetricBase × List Char)) (st : MetricsCollectorState),
    st.previousResponses.length ≤ maxPreviousResponses →
    (runRecords st rs).previousResponses =
      retainedResponses (st.previousResponses ++ rs.map Prod.snd)
  | [], st, h => by
    simp only [runRecords, List.map_nil, List.append_nil, retainedResponses]
    have : st.previousResponses.length - maxPreviousResponses = 0 := by omega
    rw [this, List.drop_zero]
  | (base, r) :: rest, st, h => by
    rw [runRecords, runRecords_previousResponses rest _
        (by rw [recordWithResponse_previousResponses st base r h]
            exact retainedResponses_length_le _),
      recordWithResponse_previousResponses st base r h]
    rw [retainedResponses_append]
    simp [List.append_assoc]

theorem foldl_max_init_le : ∀ (l : List ℚ) (b : ℚ), b ≤ l.foldl max b
  | [], b => le_refl b
  | x :: l, b => le_trans (le_max_left b x) (foldl_max_init_le l (max b x))

theorem le_foldl_max : ∀ (l : List ℚ) (b x : ℚ), x ∈ l → x ≤ l.foldl max b
  | a :: l, b, x, hx => by
    rcases List.mem_cons.mp hx with h | h
    · subst h
      exact le_trans (le_max_right b x) (foldl_max_init_le l (max b x))
    · exact le_foldl_max l (max b a) x h

theorem foldl_max_eq_init_or_mem :
    ∀ (l : List ℚ) (b : ℚ), l.foldl max b = b ∨ ∃ x ∈ l, l.foldl max b = x
  | [], b => Or.inl rfl
  | a :: l, b => by
    rcases foldl_max_eq_init_or_mem l (max b a) with h | ⟨x, hx, hfx⟩
    · rcases max_choice b a with hm | hm
      · exact Or.inl (by rw [List.foldl_cons, h, hm])
      · exact Or.inr ⟨a, List.mem_cons_self a l, by rw [List.foldl_cons, h, hm]⟩
    · exact Or.inr ⟨x, List.mem_cons_of_mem a hx, by rw [List.foldl_cons, hfx]⟩

theorem calculateRepetitionScore_as_foldl (r : List Char) (prevs : List (List Char))
    (h : prevs ≠ []) :
    calculateRepetitionScore r prevs = (prevs.map (calculateSimilarity r)).foldl max 0 := by
  rw [calculateRepetitionScore, if_neg (by simpa using h), List.foldl_map]

theorem calculateSimilarity_le_repetitionScore (r p : List Char)
    (prevs : List (List Char)) (hp : p ∈ prevs) :
    calculateSimilarity r p ≤ calculateRepetitionScore r prevs := by
  rw [calculateRepetitionScore_as_foldl r prevs (List.ne_nil_of_mem hp)]
  exact le_foldl_max _ 0 _ (List.mem_map_of_mem _ hp)

theorem calculateRepetitionScore_attained (r : List Char) (prevs : List (List Char))
    (h : prevs ≠ []) :
    ∃ p ∈ prevs, calculateRepetitionScore r prevs = calculateSimilarity r p := by
  rw [calculateRepetitionScore_as_foldl r prevs h]
  rcases foldl_max_eq_init_or_mem (prevs.map (calculateSimilarity r)) 0 with h0 | ⟨x, hx, hfx⟩
  · obtain ⟨p, hp⟩ := List.exists_mem_of_ne_nil prevs h
    refine ⟨p, hp, le_antisymm ?_ ?_⟩
    · rw [h0]
      exact calculateSimilarity_nonneg r p
    · rw [← calculateRepetitionScore_as_foldl r prevs h]
      exact calculateSimilarity_le_repetitionScore r p prevs hp
  · obtain ⟨p, hp, hpx⟩ := List.mem_map.mp hx
    exact ⟨p, hp, by rw [hfx, hpx]⟩

/-! ## Claim C5 -/

/-- C5: for every response recorded through `recordWithResponse`, the reported
repetition score is the maximum similarity between the current response and
the retained prior responses of the session; at most the last
`maxPreviousResponses = 10` prior responses are retained (oldest dropped
first), and the score is `0` when no prior responses exist. -/
theorem claim_C5_repetitionScore (rs : List (MetricBase × List Char))
    (base : MetricBase) (r : List Char) :
    let st := runRecords initialCollector rs
    let retained := retainedResponses (rs.map Prod.snd)
    let score := calculateRepetitionScore r st.previousResponses
    st.previousResponses = retained ∧
    retained.length ≤ maxPreviousResponses ∧
    (recordWithResponse st base r).metrics.getLast? =
      some ⟨base.responseTimeMs, base.success, base.totalTokens, some score⟩ ∧
    (∀ p ∈ retained, calculateSimilarity r p ≤ score) ∧
    (retained = [] → score = 0) ∧
    (retained ≠ [] → ∃ p ∈ retained, score = calculateSimilarity r p) := by
  intro st retained score
  have hst : st.previousResponses = retained := by
    rw [show st = runRecords initialCollector rs from rfl,
      runRecords_previousResponses rs initialCollector (by simp [initialCollector, maxPreviousResponses])]
    rfl
  refine ⟨hst, retainedResponses_length_le _, ?_, ?_, ?_, ?_⟩
  · simp [recordWithResponse, score]
  · intro p hp
    exact calculateSimilarity_le_repetitionScore r p _ (hst ▸ hp)
  · intro hret
    simp [score, hst, hret, calculateRepetitionScore]
  · intro hret
    obtain ⟨p, hp, hsc⟩ :=
      calculateRepetitionScore_attained r st.previousResponses (by rw [hst]; exact hret)
    exact ⟨p, hst ▸ hp, hsc⟩

theorem claim_C5_repetitionScore_witness :
    ∃ p ∈ retainedResponses
        ([(⟨5, true, none⟩, ['a']), (⟨6, true, some 3⟩, ['b'])].map
          (Prod.snd (α := MetricBase))),
      calculateRepetitionScore ['a', 'b']
          (runRecords initialCollector
            [(⟨5, true, none⟩, ['a']), (⟨6, true, some 3⟩, ['b'])]).previousResponses =
        calculateSimilarity ['a', 'b'] p :=
  (claim_C5_repetitionScore [(⟨5, true, none⟩, ['a']), (⟨6, true, some 3⟩, ['b'])]
    ⟨7, true, none⟩ ['a', 'b']).2.2.2.2.2 (by decide)

/-! ## MetricsCollector.getSummary (claim C3)
Embedded from `MetricsCollector.getSummary`: summary metrics over the
collected message metrics; the response-time sample is the ascending sort of
the successful metrics' response times (`.sort((a, b) => a - b)`), and each
percentile reads the element at index `Math.floor(sortedLength * percentile)`. -/

structure SessionSummary where
  totalMessages : ℕ
  successfulMessages : ℕ
  failedMessages : ℕ
  totalTokens : ℕ
  avgResponseTimeMs : ℚ
  minResponseTimeMs : ℕ
  maxResponseTimeMs : ℕ
  p50ResponseTimeMs : ℕ
  p95ResponseTimeMs : ℕ
  p99ResponseTimeMs : ℕ
deriving DecidableEq

/-- Computes `Math.round(x * 100) / 100`, the two-decimal rounding the source applies
to the average. -/
def roundTo2 (q : ℚ) : ℚ := ((⌊q * 100 + 1 / 2⌋ : ℤ) : ℚ) / 100

def getSummary (metrics : List MessageMetric) : Option SessionSummary :=
  if metrics.length = 0 then none
  else
    let successfulMetrics := metrics.filter (fun m => m.success)
    let failedMetrics := metrics.filter (fun m => !m.success)
    let totalTokens := metrics.foldl (fun sum m => sum + m.totalTokens.getD 0) 0
    let avgResponseTimeMs :=
      (successfulMetrics.foldl (fun sum m => sum + (m.responseTimeMs : ℚ)) 0) /
        (successfulMetrics.length : ℚ)
    let responseTimes :=
      (successfulMetrics.map (fun m => m.responseTimeMs)).mergeSort
        (fun a b => decide (a ≤ b))
    some
      { totalMessages := metrics.length
        successfulMessages := successfulMetrics.length
        failedMessages := failedMetrics.length
        totalTokens := totalTokens
        avgResponseTimeMs := roundTo2 avgResponseTimeMs
        minResponseTimeMs :=
          if 0 < responseTimes.length then responseTimes.getD 0 0 else 0
        maxResponseTimeMs :=
          if 0 < responseTimes.length then
            responseTimes.getD (responseTimes.length - 1) 0
          else 0
        p50ResponseTimeMs :=
          if 0 < responseTimes.length then
            responseTimes.getD (Nat.floor ((responseTimes.length : ℚ) * (0.5 : ℚ))) 0
          else 0
        p95ResponseTimeMs :=
          if 0 < responseTimes.length then
            responseTimes.getD (Nat.floor ((responseTimes.length : ℚ) * (0.95 : ℚ))) 0
          else 0
        p99ResponseTimeMs :=
          if 0 < responseTimes.length then
            responseTimes.getD (Nat.floor ((responseTimes.length : ℚ) * (0.99 : ℚ))) 0
          else 0 }

/-! ## Claim C3 -/

/-- C3: for every non-empty sorted response-time sample `ts` of the successful
metrics, the summary's p50/p95/p99 equal the element of `ts` at index
`floor(n * percentile)`, and min/max are the first and last elements of
`ts`. -/
theorem claim_C3_percentiles (metrics : List MessageMetric) (ts : List ℕ)
    (hperm : ts.Perm ((metrics.filter (fun m => m.success)).map (fun m => m.responseTimeMs)))
    (hsorted : List.Sorted (· ≤ ·) ts)
    (hne : ts ≠ []) :
    ∃ s, getSummary metrics = some s ∧
      s.p50ResponseTimeMs = ts.getD (Nat.floor ((ts.length : ℚ) * (0.5 : ℚ))) 0 ∧
      s.p95ResponseTimeMs = ts.getD (Nat.floor ((ts.length : ℚ) * (0.95 : ℚ))) 0 ∧
      s.p99ResponseTimeMs = ts.getD (Nat.floor ((ts.length : ℚ) * (0.99 : ℚ))) 0 ∧
      s.minResponseTimeMs = ts.getD 0 0 ∧
      s.maxResponseTimeMs = ts.getD (ts.length - 1) 0 := by
  have hts : ((metrics.filter (fun m => m.success)).map (fun m => m.responseTimeMs)).mergeSort
      (fun a b => decide (a ≤ b)) = ts := by
    refine List.eq_of_perm_of_sorted ((List.mergeSort_perm _ _).trans hperm.symm) ?_ hsorted
    exact List.sorted_mergeSort'
      ((metrics.filter (fun m => m.success)).map (fun m => m.responseTimeMs))
  have hmne : metrics.length ≠ 0 := by
    intro h0
    rw [List.length_eq_zero.mp h0] at hperm
    simp at hperm
    exact hne hperm
  rw [getSummary, if_neg hmne]
  dsimp only
  rw [hts]
  have hpos : 0 < ts.length := List.length_pos.mpr hne
  rw [if_pos hpos, if_pos hpos, if_pos hpos, if_pos hpos, if_pos hpos]
  exact ⟨_, rfl, rfl, rfl, rfl, rfl, rfl⟩

theorem claim_C3_percentiles_witness :
    ∃ s,
      getSummary
          [⟨30, true, none, none⟩, ⟨10, true, none, none⟩, ⟨50, true, none, none⟩,
            ⟨20, true, none, none⟩, ⟨40, true, none, none⟩] = some s ∧
        s.p50ResponseTimeMs = 30 ∧ s.p95ResponseTimeMs = 50 ∧
        s.minResponseTimeMs = 10 ∧ s.maxResponseTimeMs = 50 := by
  obtain ⟨s, hs, h50, h95, h99, hmin, hmax⟩ :=
    claim_C3_percentiles
      [⟨30, true, none, none⟩, ⟨10, true, none, none⟩, ⟨50, true, none, none⟩,
        ⟨20, true, none, none⟩, ⟨40, true, none, none⟩]
      [10, 20, 30, 40, 50] (by decide) (by decide) (by decide)
  refine ⟨s, hs, ?_, ?_, ?_, ?_⟩
  · rw [h50, show Nat.floor ((([10, 20, 30, 40, 50] : List ℕ).length : ℚ) * (0.5 : ℚ)) = 2 by
      rw [Nat.floor_eq_iff (by norm_num)]; norm_num]
    rfl
  · rw [h95, show Nat.floor ((([10, 20, 30, 40, 50] : List ℕ).length : ℚ) * (0.95 : ℚ)) = 4 by
      rw [Nat.floor_eq_iff (by norm_num)]; norm_num]
    rfl
  · rw [hmin]
    rfl
  · rw [hmax]
    rfl

/-! ## PluginLoader (claims C4 and C8)
Embedded from `lib/connectors/plugins/types.ts` and
`PluginLoader.getCompatible` / `PluginLoader.validatePluginConfig` (the
loader variant that carries `priority` and `configSchema`, the one the
plugin API routes import). -/

/-- A `{ label, value }` entry of a select field. -/
structure SelectOption where
  label : String
  value : String
deriving DecidableEq

inductive FieldType
  | string
  | number
  | boolean
  | select
  | json
deriving DecidableEq

structure PluginConfigField where
  key : String
  label : String
  type : FieldType
  required : Bool
  options : Option (List SelectOption)
deriving DecidableEq

structure ConnectorPlugin where
  id : String
  priority : Option ℕ
  compatibleConnectors : List String
  configSchema : Option (List PluginConfigField)
deriving DecidableEq

def DEFAULT_PRIORITY : ℕ := 100

/-- Evaluates `p.priority ?? DEFAULT_PRIORITY`. -/
def effectivePriority (p : ConnectorPlugin) : ℕ :=
  p.priority.getD DEFAULT_PRIORITY

/-- Embedded from `PluginLoader.getCompatible`: filter the registered plugins
by declared connector-type compatibility, then sort ascending by
`(a.priority ?? 100) - (b.priority ?? 100)`. -/
def getCompatible (plugins : List ConnectorPlugin) (connectorType : String) :
    List ConnectorPlugin :=
  (plugins.filter (fun p => p.compatibleConnectors.contains connectorType)).mergeSort
    (fun a b => decide (effectivePriority a ≤ effectivePriority b))

/-- Modelled from the spec: the pipeline executor that walks the hooks is not
among the sources (only the loader and the plugin objects are); per the spec,
`beforeSend` runs over the compatible plugins in ascending-priority order. -/
def beforeSendOrder (plugins : List ConnectorPlugin) (connectorType : String) :
    List String :=
  (getCompatible plugins connectorType).map (fun p => p.id)

/-- Modelled from the spec: `afterReceive` runs over the same
ascending-priority list as `beforeSend`, not a reversed one. -/
def afterReceiveOrder (plugins : List ConnectorPlugin) (connectorType : String) :
    List String :=
  (getCompatible plugins connectorType).map (fun p => p.id)

/-! ## Claim C4 -/

/-- C4: the plugins selected for a connector type are exactly the registered
plugins declaring compatibility with it, sorted ascending by priority with
100 substituted when priority is unset, and the same ascending order governs
both `beforeSend` and `afterReceive`. -/
theorem claim_C4_pluginPipelineOrder (plugins : List ConnectorPlugin)
    (connectorType : String) :
    (getCompatible plugins connectorType).Perm
      (plugins.filter (fun p => p.compatibleConnectors.contains connectorType)) ∧
    List.Sorted (fun a b => effectivePriority a ≤ effectivePriority b)
      (getCompatible plugins connectorType) ∧
    (∀ p, p ∈ getCompatible plugins connectorType ↔
      p ∈ plugins ∧ p.compatibleConnectors.contains connectorType = true) ∧
    afterReceiveOrder plugins connectorType = beforeSendOrder plugins connectorType := by
  have hperm := List.mergeSort_perm
    (plugins.filter (fun p => p.compatibleConnectors.contains connectorType))
    (fun a b => decide (effectivePriority a ≤ effectivePriority b))
  refine ⟨hperm, ?_, ?_, rfl⟩
  · have h := @List.sorted_mergeSort ConnectorPlugin
      (fun a b => decide (effectivePriority a ≤ effectivePriority b))
      (fun a b c hab hbc => by
        simp only [decide_eq_true_eq] at *
        exact le_trans hab hbc)
      (fun a b => by
        simp only [Bool.or_eq_true, decide_eq_true_eq]
        exact le_total _ _)
      (plugins.filter (fun p => p.compatibleConnectors.contains connectorType))
    exact h.imp (fun hab => by simpa using hab)
  · intro p
    rw [show getCompatible plugins connectorType =
        (plugins.filter (fun p => p.compatibleConnectors.contains connectorType)).mergeSort
          (fun a b => decide (effectivePriority a ≤ effectivePriority b)) from rfl,
      hperm.mem_iff, List.mem_filter]

/-! ## PluginLoader.validatePluginConfig (claim C8) -/

/-- A JS runtime value as far as the validator inspects it.  `nan` is a
number whose `Number.isNaN` is true; `obj` is a plain non-null object;
`other` stands for the remaining non-object values (functions, symbols). -/
inductive JSValue where
  | undefined
  | null
  | str (s : String)
  | num (q : ℚ)
  | nan
  | bool (b : Bool)
  | obj (fields : List (String × JSValue))
  | other

/-- Reads `configObj[field.key]`: property lookup, `undefined` when absent. -/
def jsGet (fields : List (String × JSValue)) (key : String) : JSValue :=
  match fields.find? (fun kv => kv.1 == key) with
  | some kv => kv.2
  | none => .undefined

/-- Tests `value === undefined || value === null || value === ""`. -/
def isMissingOrEmpty : JSValue → Bool
  | .undefined => true
  | .null => true
  | .str s => s == ""
  | _ => false

/-- Tests `value === undefined || value === null`. -/
def isMissing : JSValue → Bool
  | .undefined => true
  | .null => true
  | _ => false

/-- Tests `typeof value === "string"`. -/
def typeofIsString : JSValue → Bool
  | .str _ => true
  | _ => false

/-- Tests `typeof value === "number" && !Number.isNaN(value)`. -/
def typeofIsNumberNotNaN : JSValue → Bool
  | .num _ => true
  | _ => false

/-- Tests `typeof value === "boolean"`. -/
def typeofIsBool : JSValue → Bool
  | .bool _ => true
  | _ => false

/-- Tests `field.options.some((o) => o.value === value)`. -/
def selectMatches (options : List SelectOption) (v : JSValue) : Bool :=
  options.any (fun o =>
    match v with
    | .str s => o.value == s
    | _ => false)

/-- The body of the per-field loop of `PluginLoader.validatePluginConfig`.
`JSON.parse` success is an external-library oracle, passed in as
`jsonParses`. -/
def validateField (jsonParses : String → Bool)
    (configObj : List (String × JSValue)) (field : PluginConfigField) :
    List String :=
  let value := jsGet configObj field.key
  if field.required && isMissingOrEmpty value then
    ["Field \"" ++ field.key ++ "\" is required"]
  else if isMissing value then []
  else
    match field.type with
    | .string =>
      if !typeofIsString value then
        ["Field \"" ++ field.key ++ "\" must be a string"]
      else []
    | .number =>
      if !typeofIsNumberNotNaN value then
        ["Field \"" ++ field.key ++ "\" must be a number"]
      else []
    | .boolean =>
      if !typeofIsBool value then
        ["Field \"" ++ field.key ++ "\" must be a boolean"]
      else []
    | .select =>
      match field.options with
      | some opts =>
        if !selectMatches opts value then
          ["Field \"" ++ field.key ++ "\" must be one of: " ++
            String.intercalate ", " (opts.map (fun o => o.value))]
        else []
      | none => []
    | .json =>
      match value with
      | .str sval => if !jsonParses sval then
          ["Field \"" ++ field.key ++ "\" must be valid JSON"]
        else []
      | _ => []

/-- Embedded from `PluginLoader.validatePluginConfig`. -/
def validatePluginConfig (jsonParses : String → Bool)
    (plugins : List ConnectorPlugin) (pluginId : String) (config : JSValue) :
    List String :=
  match plugins.find? (fun p => p.id == pluginId) with
  | none => ["Plugin \"" ++ pluginId ++ "\" is not registered"]
  | some plugin =>
    match plugin.configSchema with
    | none => []
    | some schema =>
      if schema.length = 0 then []
      else
        match config with
        | .obj configObj => schema.flatMap (validateField jsonParses configObj)
        | .null => ["Config must be a non-null object"]
        | _ => ["Config must be a non-null object"]

/-- Embedded from `POST /api/plugins/[id]/validate-config`: 404 when the
plugin is unknown, otherwise `{ valid: errors.length === 0, errors }`. -/
def validateConfigRoutePOST (jsonParses : String → Bool)
    (plugins : List ConnectorPlugin) (pluginId : String) (config : JSValue) :
    Option (Bool × List String) :=
  match plugins.find? (fun p => p.id == pluginId) with
  | none => none
  | some _ =>
    let errors := validatePluginConfig jsonParses plugins pluginId config
    some (errors.length == 0, errors)

/-! ## Claim C8 -/

/-- C8: plugin-config validation is a pure function of the declared schema
and the config map; a required field that is undefined/null/empty-string
yields an error, a present value of the wrong primitive type yields an
error, a present select value outside the declared options yields an error,
and the config is valid exactly when the error list is empty. -/
theorem claim_C8_validatePluginConfig (jsonParses : String → Bool)
    (plugins : List ConnectorPlugin) (pluginId : String)
    (plugin : ConnectorPlugin) (schema : List PluginConfigField)
    (configObj : List (String × JSValue))
    (hfind : plugins.find? (fun p => p.id == pluginId) = some plugin)
    (hschema : plugin.configSchema = some schema)
    (hne : schema ≠ []) :
    let errors := validatePluginConfig jsonParses plugins pluginId (.obj configObj)
    errors = schema.flatMap (validateField jsonParses configObj) ∧
    (∀ field ∈ schema, ∀ e ∈ validateField jsonParses configObj field, e ∈ errors) ∧
    (∀ field ∈ schema, field.required = true →
      isMissingOrEmpty (jsGet configObj field.key) = true →
      ("Field \"" ++ field.key ++ "\" is required") ∈ errors) ∧
    (∀ field ∈ schema, isMissing (jsGet configObj field.key) = false →
      ((field.type = FieldType.string ∧ typeofIsString (jsGet configObj field.key) = false) ∨
       (field.type = FieldType.number ∧ typeofIsNumberNotNaN (jsGet configObj field.key) = false) ∨
       (field.type = FieldType.boolean ∧ typeofIsBool (jsGet configObj field.key) = false)) →
      validateField jsonParses configObj field ≠ []) ∧
    (∀ field ∈ schema, ∀ opts, isMissing (jsGet configObj field.key) = false →
      field.type = FieldType.select →
      field.options = some opts →
      selectMatches opts (jsGet configObj field.key) = false →
      validateField jsonParses configObj field ≠ []) ∧
    (validateConfigRoutePOST jsonParses plugins pluginId (.obj configObj) =
      some (errors.length == 0, errors)) ∧
    ((errors.length == 0) = true ↔ errors = []) := by
  intro errors
  have herr : errors = schema.flatMap (validateField jsonParses configObj) := by
    rw [show errors = validatePluginConfig jsonParses plugins pluginId (.obj configObj) from rfl,
      validatePluginConfig, hfind]
    dsimp only
    rw [hschema]
    dsimp only
    rw [if_neg (by simpa using hne)]
  have hfieldmem : ∀ field ∈ schema, ∀ e ∈ validateField jsonParses configObj field,
      e ∈ errors := by
    intro field hf e he
    rw [herr]
    exact List.mem_flatMap.mpr ⟨field, hf, he⟩
  refine ⟨herr, hfieldmem, ?_, ?_, ?_, ?_, ?_⟩
  · intro field hf hreq hval
    refine hfieldmem field hf _ ?_
    rw [validateField]
    simp [hreq, hval]
  · intro field hf hpresent hmis
    rcases hmis with ⟨ht, hv⟩ | ⟨ht, hv⟩ | ⟨ht, hv⟩
    · rw [validateField]
      by_cases h1 : (field.required && isMissingOrEmpty (jsGet configObj field.key)) = true
      · rw [if_pos h1]; simp
      · rw [if_neg h1, if_neg (by simp [hpresent]), ht]
        simp [hv]
    · rw [validateField]
      by_cases h1 : (field.required && isMissingOrEmpty (jsGet configObj field.key)) = true
      · rw [if_pos h1]; simp
      · rw [if_neg h1, if_neg (by simp [hpresent]), ht]
        simp [hv]
    · rw [validateField]
      by_cases h1 : (field.required && isMissingOrEmpty (jsGet configObj field.key)) = true
      · rw [if_pos h1]; simp
      · rw [if_neg h1, if_neg (by simp [hpresent]), ht]
        simp [hv]
  · intro field hf opts hpresent ht hopts hsel
    rw [validateField]
    by_cases h1 : (field.required && isMissingOrEmpty (jsGet configObj field.key)) = true
    · rw [if_pos h1]; simp
    · rw [if_neg h1, if_neg (by simp [hpresent]), ht, hopts]
      simp [hsel]
  · rw [validateConfigRoutePOST, hfind]
  · simp

theorem claim_C8_validatePluginConfig_witness :
    ("Field \"model\" must be one of: gpt-4" ∈
      validatePluginConfig (fun _ => true)
        [⟨"openai", some 50, ["HTTP_REST"],
          some [⟨"model", "Model", FieldType.select, true, some [⟨"GPT-4", "gpt-4"⟩]⟩]⟩]
        "openai"
        (.obj [("model", .str "gpt-5")])) := by
  have h := claim_C8_validatePluginConfig (fun _ => true)
    [⟨"openai", some 50, ["HTTP_REST"],
      some [⟨"model", "Model", FieldType.select, true, some [⟨"GPT-4", "gpt-4"⟩]⟩]⟩]
    "openai"
    ⟨"openai", some 50, ["HTTP_REST"],
      some [⟨"model", "Model", FieldType.select, true, some [⟨"GPT-4", "gpt-4"⟩]⟩]⟩
    [⟨"model", "Model", FieldType.select, true, some [⟨"GPT-4", "gpt-4"⟩]⟩]
    [("model", JSValue.str "gpt-5")]
    (by decide) (by decide) (by decide)
  exact h.2.1
    ⟨"model", "Model", FieldType.select, true, some [⟨"GPT-4", "gpt-4"⟩]⟩
    (by decide)
    "Field \"model\" must be one of: gpt-4"
    (by decide)

/-! ## Anthropic conversation plugin (claim C6)
Embedded from `anthropicPlugin.beforeSend` / `anthropicPlugin.afterReceive`:
the role-tagged history kept in `PluginContext.state.messages`. -/

inductive Role where
  | user
  | assistant
deriving DecidableEq

structure AnthropicMessage where
  role : Role
  content : String
deriving DecidableEq

/-- Embedded from `anthropicPlugin.beforeSend`: when the last history entry
is a user turn it is overwritten in place (`messages[messages.length - 1] =
{...}`), otherwise the new user message is pushed. -/
def anthropicBeforeSend (messages : List AnthropicMessage) (message : String) :
    List AnthropicMessage :=
  match messages.getLast? with
  | some lastMessage =>
    if lastMessage.role = Role.user then
      messages.dropLast ++ [⟨Role.user, message⟩]
    else
      messages ++ [⟨Role.user, message⟩]
  | none => messages ++ [⟨Role.user, message⟩]

/-- Embedded from `anthropicPlugin.afterReceive`: the assistant response is
always pushed. -/
def anthropicAfterReceive (messages : List AnthropicMessage) (content : String) :
    List AnthropicMessage :=
  messages ++ [⟨Role.assistant, content⟩]

inductive AnthropicOp where
  | beforeSend (message : String)
  | afterReceive (content : String)

def runAnthropicOps : List AnthropicOp → List AnthropicMessage → List AnthropicMessage
  | [], h => h
  | .beforeSend m :: ops, h => runAnthropicOps ops (anthropicBeforeSend h m)
  | .afterReceive c :: ops, h => runAnthropicOps ops (anthropicAfterReceive h c)

/-- No two adjacent history entries are both user turns. -/
def NoConsecutiveUsers (h : List AnthropicMessage) : Prop :=
  List.Chain' (fun a b => ¬(a.role = Role.user ∧ b.role = Role.user)) h

theorem noConsecutiveUsers_beforeSend (h : List AnthropicMessage) (m : String)
    (hh : NoConsecutiveUsers h) : NoConsecutiveUsers (anthropicBeforeSend h m) := by
  unfold NoConsecutiveUsers at *
  unfold anthropicBeforeSend
  match hlast : h.getLast? with
  | none =>
    have : h = [] := List.getLast?_eq_none_iff.mp hlast
    subst this
    simp
  | some lastMessage =>
    have hne : h ≠ [] := by
      intro h0
      rw [h0] at hlast
      simp at hlast
    have hdecomp : h.dropLast ++ [lastMessage] = h := by
      have h1 : h.getLast hne = lastMessage := by
        rw [List.getLast?_eq_getLast h hne, Option.some_inj] at hlast
        exact hlast
      rw [← h1]
      exact List.dropLast_append_getLast hne
    dsimp only
    split_ifs with hrole
    · rw [← hdecomp] at hh
      rw [List.chain'_append] at hh ⊢
      refine ⟨hh.1, List.chain'_singleton _, ?_⟩
      intro x hx y hy
      rw [List.head?_cons, Option.mem_some_iff] at hy
      subst hy
      intro ⟨hxu, _⟩
      exact hh.2.2 x hx lastMessage (by simp) ⟨hxu, hrole⟩
    · rw [List.chain'_append]
      refine ⟨hh, List.chain'_singleton _, ?_⟩
      intro x hx y hy
      rw [List.head?_cons, Option.mem_some_iff] at hy
      subst hy
      have hxlast : x = lastMessage := by
        rw [List.getLast?_eq_getLast h hne] at hx hlast
        rw [Option.mem_some_iff] at hx
        rw [Option.some_inj] at hlast
        exact hx ▸ hlast
      intro ⟨hxu, _⟩
      exact hrole (hxlast ▸ hxu)

theorem noConsecutiveUsers_afterReceive (h : List AnthropicMessage) (c : String)
    (hh : NoConsecutiveUsers h) : NoConsecutiveUsers (anthropicAfterReceive h c) := by
  unfold NoConsecutiveUsers at *
  unfold anthropicAfterReceive
  rw [List.chain'_append]
  refine ⟨hh, List.chain'_singleton _, ?_⟩
  intro x _ y hy
  rw [List.head?_cons, Option.mem_some_iff] at hy
  subst hy
  intro ⟨_, hx⟩
  exact absurd hx (by simp)

theorem noConsecutiveUsers_run :
    ∀ (ops : List AnthropicOp) (h : List AnthropicMessage),
    NoConsecutiveUsers h → NoConsecutiveUsers (runAnthropicOps ops h)
  | [], _, hh => hh
  | .beforeSend m :: ops, h, hh =>
    noConsecutiveUsers_run ops _ (noConsecutiveUsers_beforeSend h m hh)
  | .afterReceive c :: ops, h, hh =>
    noConsecutiveUsers_run ops _ (noConsecutiveUsers_afterReceive h c hh)

/-! ## Claim C6 -/

/-- C6: the Anthropic plugin's history never holds two consecutive user
entries after any sequence of `beforeSend`/`afterReceive` calls starting
from the empty history, because `beforeSend` overwrites (not appends) the
last entry when it is already a user turn. -/
theorem claim_C6_anthropicAlternation (ops : List AnthropicOp) (m : String) :
    NoConsecutiveUsers (runAnthropicOps ops []) ∧
    (∀ h : List AnthropicMessage, ∀ lastMessage ∈ h.getLast?,
      lastMessage.role = Role.user →
      anthropicBeforeSend h m = h.dropLast ++ [⟨Role.user, m⟩] ∧
      (anthropicBeforeSend h m).length = h.length) := by
  constructor
  · exact noConsecutiveUsers_run ops [] (List.chain'_nil)
  · intro h lastMessage hlast hrole
    have hne : h ≠ [] := by
      intro h0
      rw [h0] at hlast
      simp at hlast
    have heq : anthropicBeforeSend h m = h.dropLast ++ [⟨Role.user, m⟩] := by
      unfold anthropicBeforeSend
      rw [Option.mem_def] at hlast
      rw [hlast]
      simp [hrole]
    refine ⟨heq, ?_⟩
    rw [heq]
    simp only [List.length_append, List.length_dropLast, List.length_singleton]
    have : 0 < h.length := List.length_pos.mpr hne
    omega

theorem claim_C6_anthropicAlternation_witness :
    NoConsecutiveUsers
      (runAnthropicOps [AnthropicOp.beforeSend "a", AnthropicOp.beforeSend "b"] []) ∧
    anthropicBeforeSend [⟨Role.user, "a"⟩] "b" = [⟨Role.user, "b"⟩] ∧
    (anthropicBeforeSend [⟨Role.user, "a"⟩] "b").length = 1 := by
  have h := claim_C6_anthropicAlternation
    [AnthropicOp.beforeSend "a", AnthropicOp.beforeSend "b"] "b"
  have h2 := h.2 [⟨Role.user, "a"⟩] ⟨Role.user, "a"⟩ (by decide) rfl
  exact ⟨h.1, h2.1.trans (by decide), h2.2.trans rfl⟩

/-! ## Connectors (claims C2, C9, C10)
Embedded from `gRPCConnector.sendMessage`, `WebSocketConnector.sendMessage` /
`WebSocketConnector.handleMessage`, and `SSEConnector.sendMessage`.  The async
promise is modelled by an `Except`: `Except.ok` is a resolution,
`Except.error` a rejection (a thrown error at the `await`). -/

structure ConnectorResponse where
  content : String
  responseTimeMs : ℤ
  success : Bool
deriving DecidableEq

structure GrpcServiceError where
  code : ℕ
  message : String
deriving DecidableEq

/-- Embedded from the callback body of `gRPCConnector.sendMessage`: a service
error rejects with `gRPC error (code): message`; otherwise the extracted
content resolves with `success: true` (extraction failure rejects).
`extractResponse` is the template-driven extractor inherited from
`BaseConnector`, passed in as an oracle. -/
def grpcSendMessageCallback (extractResponse : String → Except String String)
    (responseTimeMs : ℤ) (error : Option GrpcServiceError) (response : String) :
    Except String ConnectorResponse :=
  match error with
  | some e =>
    Except.error ("gRPC error (" ++ toString e.code ++ "): " ++ e.message)
  | none =>
    match extractResponse response with
    | Except.ok content => Except.ok ⟨content, responseTimeMs, true⟩
    | Except.error msg => Except.error msg

/-- One entry of `WebSocketConnector.messageQueue`; `id` stands for the
pending promise's identity. -/
structure QueuedMessage where
  id : ℕ
  message : String
deriving DecidableEq

structure WsState where
  messageQueue : List QueuedMessage
deriving DecidableEq

/-- The observable events of the WebSocket connector: a `sendMessage` call
queueing an entry, an incoming wire message (`parsed = none` when
`JSON.parse` throws, otherwise the extracted content), and the per-message
timeout firing for a message text. -/
inductive WsEvent where
  | send (id : ℕ) (message : String)
  | recv (now : ℤ) (parsed : Option String)
  | timeout (message : String)

/-- Embedded from `WebSocketConnector.sendMessage` (queueing, timeout
removal by message text) and `WebSocketConnector.handleMessage` (a parsed
message shifts and resolves the queue head with
`responseTimeMs = Date.now() - Date.now()`; a parse failure rejects every
queued entry). -/
def wsStep (st : WsState) :
    WsEvent → WsState × List (ℕ × Except String ConnectorResponse)
  | .send id message => (⟨st.messageQueue ++ [⟨id, message⟩]⟩, [])
  | .recv now parsed =>
    match parsed with
    | none =>
      (⟨[]⟩, st.messageQueue.map
        (fun q => (q.id, Except.error "Failed to parse WebSocket message")))
    | some content =>
      match st.messageQueue with
      | [] => (⟨[]⟩, [])
      | queued :: rest =>
        (⟨rest⟩, [(queued.id, Except.ok ⟨content, now - now, true⟩)])
  | .timeout message =>
    match st.messageQueue.findIdx? (fun item => item.message == message) with
    | some index =>
      (⟨st.messageQueue.eraseIdx index⟩,
        match st.messageQueue.get? index with
        | some queued => [(queued.id, Except.error "WebSocket message timeout")]
        | none => [])
    | none => (st, [])

def wsRun : WsState → List WsEvent →
    WsState × List (ℕ × Except String ConnectorResponse)
  | st, [] => (st, [])
  | st, e :: es =>
    match wsStep st e with
    | (st1, out) =>
      match wsRun st1 es with
      | (st2, outs) => (st2, out ++ outs)

/-- One parsed SSE payload: `done` is
`data.done || data.finished || data.complete`, `chunk` the extracted
content. -/
structure SseData where
  done : Bool
  chunk : String
deriving DecidableEq

/-- The events one `SSEConnector.sendMessage` call observes on its stream:
an `onmessage` (with `parsed = none` when `JSON.parse` throws, which is
logged and skipped), an `onerror`, or the timeout firing. -/
inductive SseEvent where
  | message (parsed : Option SseData)
  | streamError
  | streamTimeout

/-- Embedded from the promise body of `SSEConnector.sendMessage`: chunks
accumulate until a completion sentinel resolves with the accumulated
content; a stream error or timeout before completion rejects.  `none` means
the call never settles within the observed events. -/
def sseOutcome : List SseEvent → String → Option (Except String String)
  | [], _ => none
  | .message none :: rest, responseContent => sseOutcome rest responseContent
  | .message (some d) :: rest, responseContent =>
    if d.done then some (Except.ok responseContent)
    else sseOutcome rest (responseContent ++ d.chunk)
  | .streamError :: _, _ => some (Except.error "SSE stream error")
  | .streamTimeout :: _, _ => some (Except.error "SSE stream timeout")

/-! ## Claim C2 -/

/-- C2 as stated is false: on a remote-side gRPC service error,
`sendMessage` rejects (throws at the `await`) instead of resolving with
`success: false`. -/
theorem claim_C2_counterexample :
    grpcSendMessageCallback (fun s => Except.ok s) 120 (some ⟨5, "boom"⟩) "raw" =
      Except.error "gRPC error (5): boom" ∧
    ¬ ∃ r : ConnectorResponse,
      grpcSendMessageCallback (fun s => Except.ok s) 120 (some ⟨5, "boom"⟩) "raw" =
        Except.ok r ∧ r.success = false := by
  constructor
  · rfl
  · rintro ⟨r, hr, _⟩
    rw [grpcSendMessageCallback] at hr
    exact absurd hr (by simp)

/-- C2 amended: for every connector variant, `sendMessage` signals
remote-side errors (gRPC service error, WebSocket per-message timeout, SSE
stream error or timeout) by rejecting the returned promise rather than by
resolving `success: false`; only successful responses resolve, with
`success: true` where the variant sets the flag. -/
theorem claim_C2_sendMessage_rejects_on_remote_error
    (extractResponse : String → Except String String) (rt : ℤ)
    (e : GrpcServiceError) (response : String)
    (queued : QueuedMessage) (rest : List QueuedMessage)
    (events : List SseEvent) (acc : String) :
    grpcSendMessageCallback extractResponse rt (some e) response =
      Except.error ("gRPC error (" ++ toString e.code ++ "): " ++ e.message) ∧
    (wsStep ⟨queued :: rest⟩ (WsEvent.timeout queued.message)).2 =
      [(queued.id, Except.error "WebSocket message timeout")] ∧
    sseOutcome (SseEvent.streamError :: events) acc =
      some (Except.error "SSE stream error") ∧
    sseOutcome (SseEvent.streamTimeout :: events) acc =
      some (Except.error "SSE stream timeout") ∧
    (∀ content, extractResponse response = Except.ok content →
      grpcSendMessageCallback extractResponse rt none response =
        Except.ok ⟨content, rt, true⟩) := by
  refine ⟨rfl, ?_, rfl, rfl, ?_⟩
  · rw [wsStep]
    rw [show (queued :: rest).findIdx? (fun item => item.message == queued.message) = some 0 by
      rw [List.findIdx?_cons]
      simp]
    simp
  · intro content hc
    rw [grpcSendMessageCallback, hc]

theorem claim_C2_sendMessage_rejects_witness :
    grpcSendMessageCallback (fun s => Except.ok s) 7 none "hello" =
      Except.ok ⟨"hello", 7, true⟩ :=
  (claim_C2_sendMessage_rejects_on_remote_error (fun s => Except.ok s) 7
    ⟨5, "boom"⟩ "hello" ⟨0, "m"⟩ [] [] "").2.2.2.2 "hello" rfl

/-! ## Claim C9 -/

theorem wsRun_recv_fifo :
    ∀ (recvs : List (ℤ × String)) (queue : List QueuedMessage),
    wsRun ⟨queue⟩ (recvs.map (fun tc => WsEvent.recv tc.1 (some tc.2))) =
      (⟨queue.drop recvs.length⟩,
        ((queue.take recvs.length).zip recvs).map
          (fun p => (p.1.id, Except.ok ⟨p.2.2, 0, true⟩)))
  | [], queue => by simp [wsRun]
  | (t, c) :: recvs, [] => by
    rw [List.map_cons, wsRun]
    have h := wsRun_recv_fifo recvs []
    simp only [List.drop_nil, List.take_nil, List.zip_nil_left, List.map_nil] at h
    rw [show wsStep ⟨[]⟩ (WsEvent.recv t (some c)) = (⟨[]⟩, []) from rfl]
    dsimp only
    rw [h]
    simp
  | (t, c) :: recvs, queued :: queue => by
    rw [List.map_cons, wsRun]
    rw [show wsStep ⟨queued :: queue⟩ (WsEvent.recv t (some c)) =
      (⟨queue⟩, [(queued.id, Except.ok ⟨c, t - t, true⟩)]) from rfl]
    dsimp only
    rw [wsRun_recv_fifo recvs queue]
    simp [sub_self]

/-- C9: the WebSocket connector correlates responses to sends in FIFO order
with no request id: the `k`-th successfully parsed incoming message resolves
the `k`-th queued send, so the resolved ids are exactly the queue's ids in
order, and the remaining queue is the un-answered tail. -/
theorem claim_C9_wsFifoCorrelation (queue : List QueuedMessage)
    (recvs : List (ℤ × String)) :
    wsRun ⟨queue⟩ (recvs.map (fun tc => WsEvent.recv tc.1 (some tc.2))) =
      (⟨queue.drop recvs.length⟩,
        ((queue.take recvs.length).zip recvs).map
          (fun p => (p.1.id, Except.ok ⟨p.2.2, 0, true⟩))) ∧
    (wsRun ⟨queue⟩ (recvs.map (fun tc => WsEvent.recv tc.1 (some tc.2)))).2.map
        Prod.fst =
      (queue.map (fun q => q.id)).take recvs.length := by
  refine ⟨wsRun_recv_fifo recvs queue, ?_⟩
  rw [wsRun_recv_fifo recvs queue]
  have hlen : (queue.take recvs.length).length ≤ recvs.length := by
    rw [List.length_take]
    exact min_le_left _ _
  calc (((queue.take recvs.length).zip recvs).map
          (fun p => (p.1.id,
            (Except.ok ⟨p.2.2, 0, true⟩ : Except String ConnectorResponse)))).map Prod.fst
      = ((queue.take recvs.length).zip recvs).map (fun p => p.1.id) := by
        rw [List.map_map]
        rfl
    _ = (((queue.take recvs.length).zip recvs).map Prod.fst).map (fun q => q.id) := by
        rw [List.map_map]
        rfl
    _ = (queue.take recvs.length).map (fun q => q.id) := by
        rw [List.map_fst_zip _ _ hlen]
    _ = (queue.map (fun q => q.id)).take recvs.length := List.map_take _ _ _

/-! ## Claim C10 -/

/-- C10: every successful WebSocket resolution reports `responseTimeMs = 0`:
`handleMessage` computes it as `Date.now() - Date.now()` at resolution time
instead of measuring from the corresponding send, whatever the remote side's
actual latency was. -/
theorem claim_C10_wsResponseTimeZero (queued : QueuedMessage)
    (rest : List QueuedMessage) (now : ℤ) (content : String) :
    wsStep ⟨queued :: rest⟩ (WsEvent.recv now (some content)) =
      (⟨rest⟩, [(queued.id, Except.ok ⟨content, now - now, true⟩)]) ∧
    (wsStep ⟨queued :: rest⟩ (WsEvent.recv now (some content))).2 =
      [(queued.id, Except.ok ⟨content, 0, true⟩)] := by
  refine ⟨rfl, ?_⟩
  simp [wsStep, sub_self]

/-! ## Batch status derivation (claim C7)
Embedded from `GET /api/execute/batch/[batchId]`: the status counters, the
finished count, and the derived batch status. -/

inductive SessionStatus where
  | PENDING
  | QUEUED
  | RUNNING
  | COMPLETED
  | FAILED
  | CANCELLED
deriving DecidableEq

def countStatus (sessions : List SessionStatus) (s : SessionStatus) : ℕ :=
  (sessions.filter (fun x => x == s)).length

/-- Embedded from the `batchStatus` ternary of the batch route:
all finished ? (any failed ? completed_with_errors : completed)
: (any running ? running : pending). -/
def batchStatus (sessions : List SessionStatus) : String :=
  let totalSessions := sessions.length
  let finishedSessions := countStatus sessions .COMPLETED +
    countStatus sessions .FAILED + countStatus sessions .CANCELLED
  if finishedSessions = totalSessions then
    if 0 < countStatus sessions .FAILED then "completed_with_errors"
    else "completed"
  else if 0 < countStatus sessions .RUNNING then "running"
  else "pending"

def IsTerminal (s : SessionStatus) : Prop :=
  s = .COMPLETED ∨ s = .FAILED ∨ s = .CANCELLED

instance (s : SessionStatus) : Decidable (IsTerminal s) := by
  unfold IsTerminal
  infer_instance

theorem countStatus_cons (x : SessionStatus) (l : List SessionStatus)
    (s : SessionStatus) :
    countStatus (x :: l) s = (if x = s then 1 else 0) + countStatus l s := by
  by_cases h : x = s <;> (simp [countStatus, List.filter_cons, h]; try omega)

theorem countStatus_pos_iff :
    ∀ (l : List SessionStatus) (s : SessionStatus), 0 < countStatus l s ↔ s ∈ l
  | [], s => by simp [countStatus]
  | x :: l, s => by
    by_cases h : x = s
    · subst h
      simp [countStatus_cons]
    · have h' : ¬ s = x := fun hs => h hs.symm
      simp [countStatus_cons, h, h', countStatus_pos_iff l s]

theorem countStatus_terminal_sum :
    ∀ l : List SessionStatus, (∀ s ∈ l, IsTerminal s) →
    countStatus l .COMPLETED + countStatus l .FAILED + countStatus l .CANCELLED =
      l.length
  | [], _ => by simp [countStatus]
  | x :: l, h => by
    have hx := h x (List.mem_cons_self x l)
    have hrest := countStatus_terminal_sum l (fun s hs => h s (List.mem_cons_of_mem x hs))
    rcases hx with hx | hx | hx <;> subst hx <;>
      simp [countStatus_cons, List.length_cons] <;> omega


/-! ## Claim C7 -/

/-- C7 as stated is false: a batch whose members are all terminal derives a
clean `completed` status even when a member was CANCELLED rather than
succeeding — only FAILED members block `completed`. -/
theorem claim_C7_counterexample :
    batchStatus [SessionStatus.COMPLETED, SessionStatus.CANCELLED] = "completed" ∧
    ¬ (∀ s ∈ [SessionStatus.COMPLETED, SessionStatus.CANCELLED],
        s = SessionStatus.COMPLETED) := by
  constructor
  · rfl
  · decide

/-- C7 amended: for every batch whose member sessions have all reached a
terminal status, the derived batch status is `completed` iff no member
FAILED (a CANCELLED member still yields a clean `completed`); whenever any
member failed, the status is `completed_with_errors`, not `completed`. -/
theorem claim_C7_batchStatus (sessions : List SessionStatus)
    (hterm : ∀ s ∈ sessions, IsTerminal s) :
    (batchStatus sessions = "completed" ↔ SessionStatus.FAILED ∉ sessions) ∧
    (SessionStatus.FAILED ∈ sessions →
      batchStatus sessions = "completed_with_errors") := by
  have hfin := countStatus_terminal_sum sessions hterm
  rw [batchStatus]
  rw [if_pos hfin]
  constructor
  · by_cases hf : 0 < countStatus sessions .FAILED
    · rw [if_pos hf]
      constructor
      · intro h
        exact absurd h (by decide)
      · intro h
        exact absurd ((countStatus_pos_iff sessions .FAILED).mp hf) h
    · rw [if_neg hf]
      constructor
      · intro _ hmem
        exact hf ((countStatus_pos_iff sessions .FAILED).mpr hmem)
      · intro _
        rfl
  · intro hmem
    rw [if_pos ((countStatus_pos_iff sessions .FAILED).mpr hmem)]

theorem claim_C7_batchStatus_witness :
    batchStatus [SessionStatus.COMPLETED, SessionStatus.FAILED] =
      "completed_with_errors" :=
  (claim_C7_batchStatus [SessionStatus.COMPLETED, SessionStatus.FAILED]
    (by decide)).2 (by decide)

end Krawall
